import Mathlib

/-!
Shallow embedding of the news aggregation pipeline in `agent_ai_newsum.py`
(class `NewsAgent` and the Streamlit tab handlers).

Text is modelled as `List Char`.  Python's `str.lower()` is modelled by
`Char.toLower` (ASCII case folding), `str.strip()` by dropping whitespace
at both ends, and `len` by `List.length`.  External effects (HTTP, SMTP)
are modelled by explicit oracles describing the outcome of each call, so
that control flow of the Python code around those calls is embedded
faithfully.
-/

namespace NewsAgent

/-- The article dictionary built in `NewsAgent.scrape_news`
(`{'title': ..., 'url': ..., 'source': ..., 'timestamp': ...}`). -/
structure Article where
  title : List Char
  url : List Char
  source : List Char
  timestamp : List Char
deriving DecidableEq

/-- Python `s.lower()` on the texts we model (ASCII case folding). -/
def lowerStr (s : List Char) : List Char := s.map Char.toLower

/-- The deduplication loop of the Fetch News handler:

    for article in all_articles:
        title_lower = article['title'].lower()
        if title_lower not in seen_titles:
            unique_articles.append(article)
            seen_titles.add(title_lower)

The Python `set` of seen titles is modelled as a list with membership. -/
def dedupLoop : List Article → List (List Char) → List Article
  | [], _ => []
  | a :: rest, seen =>
    if lowerStr a.title ∈ seen then
      dedupLoop rest seen
    else
      a :: dedupLoop rest (lowerStr a.title :: seen)

/-- The dedup loop started from an empty seen-set (`seen_titles = set()`). -/
def dedupe (l : List Article) : List Article := dedupLoop l []

/-- The Deduplicator as the spec describes it: the dedup loop followed by
the truncation `unique_articles[:10]` stored into `session_state.news_data`. -/
def dedupe10 (l : List Article) : List Article := (dedupe l).take 10

/-- A scheme character after the leading letter (RFC 3986 `scheme`). -/
def isSchemeChar (c : Char) : Bool := c.isAlphanum || c == '+' || c == '-' || c == '.'

/-- Splits a leading URI scheme off a string: `some (scheme, rest)` when the
string is `scheme ++ ":" ++ rest` with a wellformed nonempty scheme, `none`
otherwise.  `none` means the string is a relative reference. -/
def splitScheme : List Char → Option (List Char × List Char)
  | [] => none
  | c :: rest =>
    if c.isAlpha then
      match rest.dropWhile isSchemeChar with
      | d :: r => if d = ':' then some (c :: rest.takeWhile isSchemeChar, r) else none
      | [] => none
    else none

/-- A string is an absolute URI when it carries a scheme. -/
def hasScheme (s : List Char) : Bool := (splitScheme s).isSome

/-- Characters that may appear in the authority component. -/
def isAuthorityChar (c : Char) : Bool := !(c == '/' || c == '?' || c == '#')

/-- Splits `"//host..."` into the authority part (kept with its leading
slashes) and the rest of the string (path onwards). -/
def splitAuthority (s : List Char) : List Char × List Char :=
  match s with
  | a :: b :: rest =>
    if a = '/' ∧ b = '/' then
      ('/' :: '/' :: rest.takeWhile isAuthorityChar, rest.dropWhile isAuthorityChar)
    else ([], s)
  | _ => ([], s)

/-- The directory of a path: everything up to and including the last slash,
`"/"` when the path has no slash. -/
def dirOf (p : List Char) : List Char :=
  let d := (p.reverse.dropWhile (fun c => !(c == '/'))).reverse
  if d = [] then ['/'] else d

/-- Model of `urllib.parse.urljoin` (an external library call), restricted to
the behaviour relevant here: bases carrying a scheme, with dot-segment
normalisation and query/fragment handling omitted.  A reference with its own
scheme is returned unchanged; `"//..."`, `"/..."` and plain relative
references are resolved against the base's scheme, authority and directory. -/
def urljoin (base rel : List Char) : List Char :=
  if rel = [] then base
  else
    match splitScheme rel with
    | some _ => rel
    | none =>
      match splitScheme base with
      | none => rel
      | some (sch, baseRest) =>
        if rel.take 2 = ['/', '/'] then sch ++ ':' :: rel
        else
          let ap := splitAuthority baseRest
          if rel.take 1 = ['/'] then sch ++ ':' :: (ap.1 ++ rel)
          else sch ++ ':' :: (ap.1 ++ dirOf ap.2 ++ rel)

/-- Python `s.strip()` on the texts we model: whitespace removed from both
ends. -/
def pyStrip (s : List Char) : List Char :=
  ((s.dropWhile Char.isWhitespace).reverse.dropWhile Char.isWhitespace).reverse

/-- One heading element found by
`soup.find_all(['h1','h2','h3','h4'], limit=20)`: its text content and, when
`headline.find_parent('a')` yields an anchor with a truthy `href`, that
`href` value (`none` models both a missing anchor and a falsy `href`). -/
structure Heading where
  text : List Char
  parentHref : Option (List Char)
deriving DecidableEq

/-- The body of the headline loop in `NewsAgent.scrape_news`: what one
heading contributes to `articles` (`none` when the length filter rejects
it).

    text = headline.get_text().strip()
    if len(text) > 20 and len(text) < 200:
        link = headline.find_parent('a')
        url_link = link['href'] if link and link.get('href') else ""
        if url_link and not url_link.startswith('http'):
            url_link = urljoin(url, url_link)
        articles.append({'title': text, 'url': url_link, ...}) -/
def mkArticle (url source_name now : List Char) (headline : Heading) : Option Article :=
  let text := pyStrip headline.text
  if 20 < text.length ∧ text.length < 200 then
    let url0 := headline.parentHref.getD []
    let url_link :=
      if url0 ≠ [] ∧ ¬ List.isPrefixOf ['h', 't', 't', 'p'] url0 then urljoin url url0
      else url0
    some { title := text, url := url_link, source := source_name, timestamp := now }
  else none

/-- `NewsAgent.scrape_news`.  The network fetch and HTML parsing are
external; their outcome is the `page` argument: `.error e` when
`requests.get` or parsing raised (the `except` branch reports the error
and returns `[]`), `.ok headings` the headings found on the parsed page,
of which `find_all(..., limit=20)` yields at most the first 20.  `now` is
`datetime.now().isoformat()`, and `return articles[:15]` is the final
`take 15`. -/
def scrape_news (url : List Char) (source_name : List Char)
    (page : Except (List Char) (List Heading)) (now : List Char) : List Article :=
  match page with
  | .error _ => []
  | .ok headings =>
    ((headings.take 20).filterMap (mkArticle url source_name now)).take 15

/-- The JSON body of an HTTP response, as seen through `response.json()`:
`.invalid errMsg` models a body that is not valid JSON (where `errMsg` is
the text of the decode exception), `.obj fields` a JSON object with string
fields. -/
inductive JsonBody where
  | invalid (errMsg : List Char)
  | obj (fields : List (List Char × List Char))
deriving DecidableEq

/-- Python `str(KeyError(key))`, which wraps the key in single quotes. -/
def keyErrorMsg (key : List Char) : List Char :=
  Char.ofNat 39 :: key ++ [Char.ofNat 39]

/-- `response.json()[key]` as a fallible lookup: `.error` carries the text of
the exception it raises (decode failure, or a `KeyError` naming the key). -/
def jsonField (b : JsonBody) (key : List Char) : Except (List Char) (List Char) :=
  match b with
  | .invalid e => .error e
  | .obj fields =>
    match fields.lookup key with
    | some v => .ok v
    | none => .error (keyErrorMsg key)

/-- Outcome of one `requests.post` call: `.exc` when the call raised
(transport error, timeout), `.resp status body` when a response came back. -/
inductive HttpResult where
  | exc (msg : List Char)
  | resp (status : Nat) (body : JsonBody)
deriving DecidableEq

/-- The numbered headline block of the prompt built in
`summarize_with_ollama`: one line `"{i+1}. {title} (Source: {source})"` per
article of `articles[:10]`, joined by blank-line separators. -/
def articlesText (articles : List Article) : List Char :=
  let lines := (articles.take 10).enum.map fun p =>
    (Nat.repr (p.1 + 1)).data ++ ". ".data ++ p.2.title
      ++ " (Source: ".data ++ p.2.source ++ ")".data
  (lines.intersperse "\n\n".data).flatten

/-- The full prompt of `summarize_with_ollama` (instruction text around the
headline block). -/
def promptFor (articles : List Article) : List Char :=
  "You are a news summarization assistant. Headlines:\n".data
    ++ articlesText articles
    ++ "\nProvide a well-structured summary:".data

/-- `NewsAgent.summarize_with_ollama`.  The external completion endpoint is
the oracle `post`, mapping the submitted prompt to the outcome of the
`requests.post` call.  The `try` block covers the whole body, so a raised
transport error, a JSON decode failure and a missing `response` key all
land in the `except` branch, which returns the error as text. -/
def summarize_with_ollama (articles : List Article)
    (post : List Char → HttpResult) : List Char :=
  match post (promptFor articles) with
  | .exc e => "Error summarizing with Ollama: ".data ++ e
  | .resp status body =>
    if status = 200 then
      match jsonField body "response".data with
      | .ok v => v
      | .error e => "Error summarizing with Ollama: ".data ++ e
    else
      "Error: Unable to generate summary (Status: ".data ++ (Nat.repr status).data ++ ")".data

/-- Outcome oracle for one `send_email` invocation: whether each smtplib
call in turn would succeed (`SMTP(...)` connect, `starttls`, `login`,
`send_message`, `quit`).  A `false` flag means that call raises. -/
structure SmtpEnv where
  connectOk : Bool
  starttlsOk : Bool
  loginOk : Bool
  sendOk : Bool
  quitOk : Bool
deriving DecidableEq

/-- Observable effects of one `send_email` invocation: whether a relay
session was opened (`SMTP(...)` returned), how many transmission attempts
(`send_message` calls) were made, whether the session was closed
(`quit` completed), and the Boolean return value. -/
structure SmtpOutcome where
  opened : Bool
  sendAttempts : Nat
  closed : Bool
  result : Bool
deriving DecidableEq

/-- `NewsAgent.send_email`.  The body is one `try` block with no `finally`
and no context manager: the first failing call raises, the `except` branch
reports the error and returns `False`, and `server.quit()` runs only when
every call before it succeeded. -/
def send_email (env : SmtpEnv) : SmtpOutcome :=
  if ¬ env.connectOk then ⟨false, 0, false, false⟩
  else if ¬ env.starttlsOk then ⟨true, 0, false, false⟩
  else if ¬ env.loginOk then ⟨true, 0, false, false⟩
  else if ¬ env.sendOk then ⟨true, 1, false, false⟩
  else if ¬ env.quitOk then ⟨true, 1, false, false⟩
  else ⟨true, 1, true, true⟩

/-- The orchestrator's process-local state: `st.session_state.news_data`,
`st.session_state.ollama_available`, and `st.session_state.summary`
(`none` models the key being absent from the session state). -/
structure AgentState where
  news_data : List Article
  ollama_available : Bool
  summary : Option (List Char)
deriving DecidableEq

/-- The Fetch News button handler: scrapes every configured source (the
per-source results are the `perSource` argument, one list per source in
iteration order), concatenates them, runs the dedup loop and stores
`unique_articles[:10]` into `session_state.news_data`.  No other key of
the session state is written by this handler. -/
def fetchNews (s : AgentState) (perSource : List (List Article)) : AgentState :=
  { s with news_data := dedupe10 perSource.flatten }

/-- The Generate AI Summary button handler.  When `news_data` is empty the
tab shows a warning instead of the button; when `ollama_available` is not
set the handler reports an error; in both cases nothing is written.
Otherwise `summarize_with_ollama(st.session_state.news_data)` is stored
into `session_state.summary`. -/
def generateSummary (s : AgentState) (post : List Char → HttpResult) : AgentState :=
  if s.news_data = [] then s
  else if ¬ s.ollama_available then s
  else { s with summary := some (summarize_with_ollama s.news_data post) }

theorem isSchemeChar_colon : isSchemeChar ':' = false := by decide

theorem splitScheme_mk (c : Char) (cs t : List Char) (hc : c.isAlpha = true)
    (hcs : ∀ x ∈ cs, isSchemeChar x = true) :
    splitScheme (c :: (cs ++ ':' :: t)) = some (c :: cs, t) := by
  have hdrop : (cs ++ ':' :: t).dropWhile isSchemeChar = ':' :: t := by
    rw [List.dropWhile_append_of_pos (by simpa using hcs),
      List.dropWhile_cons_of_neg (by simp [isSchemeChar_colon])]
  have htake : (cs ++ ':' :: t).takeWhile isSchemeChar = cs := by
    rw [List.takeWhile_append_of_pos (by simpa using hcs),
      List.takeWhile_cons_of_neg (by simp [isSchemeChar_colon]), List.append_nil]
  simp [splitScheme, hc, hdrop, htake]

theorem splitScheme_shape {s sch r : List Char} (h : splitScheme s = some (sch, r)) :
    ∃ c cs, sch = c :: cs ∧ c.isAlpha = true ∧ (∀ x ∈ cs, isSchemeChar x = true) ∧
      s = c :: (cs ++ ':' :: r) := by
  match s with
  | [] => simp [splitScheme] at h
  | c :: rest =>
    rw [splitScheme] at h
    by_cases hc : c.isAlpha
    · rw [if_pos hc] at h
      cases hd : rest.dropWhile isSchemeChar with
      | nil => rw [hd] at h; exact absurd h (by simp)
      | cons d rs =>
        rw [hd] at h
        dsimp only at h
        by_cases hdc : d = ':'
        · rw [if_pos hdc] at h
          obtain ⟨hsch, hr⟩ := Prod.mk.injEq .. ▸ Option.some.inj h
          refine ⟨c, rest.takeWhile isSchemeChar, hsch.symm, hc,
            fun x hx => List.mem_takeWhile_imp hx, ?_⟩
          have : rest = rest.takeWhile isSchemeChar ++ rest.dropWhile isSchemeChar :=
            (List.takeWhile_append_dropWhile isSchemeChar rest).symm
          rw [hd, hdc, hr] at this
          rw [← this]
        · rw [if_neg hdc] at h
          exact absurd h (by simp)
    · rw [if_neg hc] at h
      exact absurd h (by simp)

theorem urljoin_hasScheme (base rel : List Char) (hb : hasScheme base = true) :
    hasScheme (urljoin base rel) = true := by
  rw [urljoin]
  split
  · exact hb
  split
  · rename_i x hx
    rw [hasScheme, hx]
    rfl
  split
  · rename_i hbnone
    rw [hasScheme, hbnone] at hb
    exact absurd hb (by simp)
  rename_i sch baseRest hbsome
  obtain ⟨c, cs, rfl, hc, hcs, _⟩ := splitScheme_shape hbsome
  split
  · rw [List.cons_append, hasScheme, splitScheme_mk c cs _ hc hcs]
    rfl
  split
  · rw [List.cons_append, hasScheme, splitScheme_mk c cs _ hc hcs]
    rfl
  · rw [List.cons_append, hasScheme, splitScheme_mk c cs _ hc hcs]
    rfl

theorem mkArticle_eq_some {url source_name now : List Char} {headline : Heading} {a : Article}
    (heq : mkArticle url source_name now headline = some a) :
    20 < (pyStrip headline.text).length ∧ (pyStrip headline.text).length < 200 ∧
      a = { title := pyStrip headline.text,
            url :=
              if headline.parentHref.getD [] ≠ [] ∧
                  ¬ List.isPrefixOf ['h', 't', 't', 'p'] (headline.parentHref.getD []) then
                urljoin url (headline.parentHref.getD [])
              else headline.parentHref.getD [],
            source := source_name, timestamp := now } := by
  by_cases hlen : 20 < (pyStrip headline.text).length ∧ (pyStrip headline.text).length < 200
  · rw [mkArticle] at heq
    simp only [if_pos hlen] at heq
    exact ⟨hlen.1, hlen.2, (Option.some.inj heq).symm⟩
  · rw [mkArticle] at heq
    simp only [if_neg hlen] at heq
    exact absurd heq (by simp)

theorem scrape_news_mem {url source_name now : List Char}
    {page : Except (List Char) (List Heading)} {a : Article}
    (ha : a ∈ scrape_news url source_name page now) :
    ∃ headline : Heading,
      20 < (pyStrip headline.text).length ∧ (pyStrip headline.text).length < 200 ∧
      a = { title := pyStrip headline.text,
            url :=
              if headline.parentHref.getD [] ≠ [] ∧
                  ¬ List.isPrefixOf ['h', 't', 't', 'p'] (headline.parentHref.getD []) then
                urljoin url (headline.parentHref.getD [])
              else headline.parentHref.getD [],
            source := source_name, timestamp := now } := by
  match page with
  | .error e => simp [scrape_news] at ha
  | .ok headings =>
    rw [scrape_news] at ha
    obtain ⟨h, _, heq⟩ := List.mem_filterMap.mp (List.mem_of_mem_take ha)
    exact ⟨h, mkArticle_eq_some heq⟩

theorem dedupLoop_sublist (l : List Article) (seen : List (List Char)) :
    (dedupLoop l seen).Sublist l := by
  induction l generalizing seen with
  | nil => simp [dedupLoop]
  | cons a rest ih =>
    by_cases h : lowerStr a.title ∈ seen
    · exact List.Sublist.trans (by simpa [dedupLoop, h] using ih seen) (List.sublist_cons_self a rest)
    · simpa [dedupLoop, h] using List.Sublist.cons₂ a (ih (lowerStr a.title :: seen))

theorem dedupLoop_not_seen {l : List Article} {seen : List (List Char)} {a : Article}
    (ha : a ∈ dedupLoop l seen) : lowerStr a.title ∉ seen := by
  induction l generalizing seen with
  | nil => simp [dedupLoop] at ha
  | cons b rest ih =>
    by_cases h : lowerStr b.title ∈ seen
    · exact ih (by simpa [dedupLoop, h] using ha)
    · rw [dedupLoop, if_neg h] at ha
      rcases List.mem_cons.mp ha with rfl | ha
      · exact h
      · intro hmem
        exact ih ha (List.mem_cons_of_mem _ hmem)

theorem dedupLoop_find? {l : List Article} {seen : List (List Char)} {a : Article}
    (ha : a ∈ dedupLoop l seen) :
    l.find? (fun b => decide (lowerStr b.title = lowerStr a.title)) = some a := by
  induction l generalizing seen with
  | nil => simp [dedupLoop] at ha
  | cons b rest ih =>
    by_cases h : lowerStr b.title ∈ seen
    · rw [dedupLoop, if_pos h] at ha
      have hne : lowerStr b.title ≠ lowerStr a.title := by
        intro he
        exact dedupLoop_not_seen ha (he ▸ h)
      rw [List.find?_cons_of_neg _ (by simpa using hne)]
      exact ih ha
    · rw [dedupLoop, if_neg h] at ha
      rcases List.mem_cons.mp ha with rfl | ha
      · exact List.find?_cons_of_pos _ (by simp)
      · have hnot := dedupLoop_not_seen ha
        have hne : lowerStr b.title ≠ lowerStr a.title := by
          intro he
          exact hnot (by simp [he])
        rw [List.find?_cons_of_neg _ (by simpa using hne)]
        exact ih ha

theorem dedupLoop_pairwise (l : List Article) (seen : List (List Char)) :
    (dedupLoop l seen).Pairwise (fun a b => lowerStr a.title ≠ lowerStr b.title) := by
  induction l generalizing seen with
  | nil => simp [dedupLoop]
  | cons a rest ih =>
    by_cases h : lowerStr a.title ∈ seen
    · simpa [dedupLoop, h] using ih seen
    · rw [dedupLoop, if_neg h]
      refine List.pairwise_cons.mpr ⟨fun b hb => ?_, ih _⟩
      intro he
      exact dedupLoop_not_seen hb (by simp [he])

/-! Concrete fixtures used by counterexamples and witnesses. -/

def artA : Article :=
  ⟨"Global markets rally on rate cut hopes".data, "https://a.example/1".data,
    "BBC".data, "t1".data⟩

def artB : Article :=
  ⟨"GLOBAL MARKETS RALLY ON RATE CUT HOPES".data, "https://b.example/2".data,
    "Reuters".data, "t2".data⟩

def artC : Article :=
  ⟨"Second, quite different headline".data, [], "The Guardian".data, "t3".data⟩

def exInput : List Article := [artA, artB, artC]

def exListing : List Char := "https://example.com/news".data

def exHeading : Heading := ⟨" A sufficiently long headline ".data, some "/story/1".data⟩

def exScraped : Article :=
  ⟨"A sufficiently long headline".data, "https://example.com/story/1".data,
    "BBC".data, "t".data⟩

def badHeading : Heading :=
  ⟨"A sufficiently long headline".data, some "httpstory.html".data⟩

def exState : AgentState := ⟨[artC], true, some "previous summary".data⟩

def emptyState : AgentState := ⟨[], false, none⟩

def authRejectEnv : SmtpEnv := ⟨true, true, false, true, true⟩

def timeoutPost : List Char → HttpResult := fun _ => .exc "timed out".data

def noFieldPost : List Char → HttpResult := fun _ => .resp 200 (.obj [])

/-- C1: for every input sequence of Articles, the Deduplicator's output
(dedup loop followed by the cap `unique_articles[:10]`) contains no two
elements whose titles are equal under case-insensitive comparison, and the
output length is at most 10 — for a combined input pool of any size, in
particular when each source contributes up to 15 raw candidates. -/
theorem dedupe_unique_titles_and_cap (l : List Article) :
    ((dedupe10 l).Pairwise fun a b => lowerStr a.title ≠ lowerStr b.title) ∧
      (dedupe10 l).length ≤ 10 :=
  ⟨(dedupLoop_pairwise l []).sublist (List.take_sublist 10 (dedupe l)),
    List.length_take_le 10 (dedupe l)⟩

/-- C2: every Article the Fetcher outputs for a page has a title whose
length is strictly between 20 and 200 characters; a heading whose trimmed
text has length outside this open interval never appears in the output. -/
theorem scrape_title_length_bounds (url source_name : List Char)
    (page : Except (List Char) (List Heading)) (now : List Char) (a : Article)
    (ha : a ∈ scrape_news url source_name page now) :
    20 < a.title.length ∧ a.title.length < 200 := by
  obtain ⟨h, h1, h2, rfl⟩ := scrape_news_mem ha
  exact ⟨h1, h2⟩

/-- Witness for C2 at a concrete page: one heading with padded text of
trimmed length 28 and href `/story/1` yields exactly `exScraped`. -/
theorem scrape_title_length_bounds_witness :
    20 < exScraped.title.length ∧ exScraped.title.length < 200 :=
  scrape_title_length_bounds exListing "BBC".data (.ok [exHeading]) "t".data
    exScraped (by decide)

/-- C3 counterexample: a heading whose anchor target is `httpstory.html` —
a relative reference (it has no scheme) that happens to start with the four
characters `http` — is left unresolved by `scrape_news`, so its output
Article has a non-empty url that is not an absolute URL. -/
theorem scrape_url_not_always_absolute :
    ¬ ∀ a ∈ scrape_news exListing "BBC".data (.ok [badHeading]) "t".data,
        a.url ≠ [] → hasScheme a.url = true := by
  decide

/-- C3 amended: for every Article produced by the Fetcher from a listing
URL that is absolute, a non-empty url field is either an absolute URL or an
extracted target that already started with `http` (such a target is left
unresolved even when it is relative); relative targets not starting with
`http` are resolved against the listing-page URL at extraction time, and in
particular base `https://example.com/news` with extracted link `/story/1`
yields `https://example.com/story/1`. -/
theorem scrape_url_http_or_absolute (base source_name : List Char)
    (page : Except (List Char) (List Heading)) (now : List Char) (a : Article)
    (hb : hasScheme base = true) (ha : a ∈ scrape_news base source_name page now)
    (hurl : a.url ≠ []) :
    (hasScheme a.url = true ∨ List.isPrefixOf ['h', 't', 't', 'p'] a.url = true) ∧
      urljoin "https://example.com/news".data "/story/1".data
        = "https://example.com/story/1".data := by
  refine ⟨?_, by decide⟩
  obtain ⟨h, h1, h2, heq⟩ := scrape_news_mem ha
  have hu : a.url =
      if h.parentHref.getD [] ≠ [] ∧
          ¬ List.isPrefixOf ['h', 't', 't', 'p'] (h.parentHref.getD []) then
        urljoin base (h.parentHref.getD [])
      else h.parentHref.getD [] := by
    rw [heq]
  by_cases hif : h.parentHref.getD [] ≠ [] ∧
      ¬ List.isPrefixOf ['h', 't', 't', 'p'] (h.parentHref.getD [])
  · rw [if_pos hif] at hu
    rw [hu]
    exact Or.inl (urljoin_hasScheme base _ hb)
  · rw [if_neg hif] at hu
    push_neg at hif
    exact Or.inr (by rw [hu]; exact hif (hu ▸ hurl))

/-- Witness for C3 (amended) at a concrete page: the href `/story/1` is
resolved against `https://example.com/news` to an absolute URL. -/
theorem scrape_url_http_or_absolute_witness :
    (hasScheme exScraped.url = true ∨
        List.isPrefixOf ['h', 't', 't', 'p'] exScraped.url = true) ∧
      urljoin "https://example.com/news".data "/story/1".data
        = "https://example.com/story/1".data :=
  scrape_url_http_or_absolute exListing "BBC".data (.ok [exHeading]) "t".data
    exScraped (by decide) (by decide) (by decide)

/-- C4 counterexample: a state holding a current Summary, after the fetch
transition, still holds that same Summary as its current Summary — the
Fetch News handler writes `news_data` but never deletes or overwrites
`session_state.summary`. -/
theorem fetch_keeps_previous_summary :
    (fetchNews exState [[artA], [artB]]).summary = exState.summary ∧
      exState.summary = some "previous summary".data := by
  decide

/-- C4 amended: the fetch transition discards and replaces the current
Article set (storing the deduplicated, capped scrape results), but it
leaves the previously generated Summary in place as the state's current
Summary; the Summary is replaced only by a later generate-summary action. -/
theorem fetch_replaces_articles_keeps_summary (s : AgentState)
    (perSource : List (List Article)) :
    (fetchNews s perSource).news_data = dedupe10 perSource.flatten ∧
      (fetchNews s perSource).summary = s.summary ∧
      (fetchNews s perSource).ollama_available = s.ollama_available :=
  ⟨rfl, rfl, rfl⟩

/-- C5 counterexample: when the relay rejects authentication, `send_email`
has opened the session (`SMTP(...)` succeeded) but `server.quit()` is never
reached — there is no `finally` block — so the session is not closed. -/
theorem send_email_session_not_closed_on_auth_failure :
    (send_email authRejectEnv).opened = true ∧
      (send_email authRejectEnv).closed = false := by
  decide

/-- C5 amended: the relay session is cleanly closed only on the fully
successful execution path: for every invocation, the session is closed
exactly when the invocation returns true; on every failure path after the
session was opened, the session stays open. -/
theorem send_email_closed_iff_success (env : SmtpEnv) :
    (send_email env).closed = (send_email env).result := by
  obtain ⟨a, b, c, d, e⟩ := env
  cases a <;> cases b <;> cases c <;> cases d <;> cases e <;> decide

/-- C6: the Summarizer client is total on every endpoint outcome (never
raises to the caller); a transport error or timeout yields the non-empty
explanatory text built from the exception, a non-200 status yields the
non-empty status error text, and a 200 response whose JSON body has a
`response` field yields that field's content verbatim. -/
theorem summarize_error_contract (articles : List Article)
    (post : List Char → HttpResult) :
    (∀ e, post (promptFor articles) = .exc e →
        summarize_with_ollama articles post
            = "Error summarizing with Ollama: ".data ++ e ∧
          summarize_with_ollama articles post ≠ []) ∧
    (∀ status body, post (promptFor articles) = .resp status body → status ≠ 200 →
        summarize_with_ollama articles post
            = "Error: Unable to generate summary (Status: ".data
                ++ (Nat.repr status).data ++ ")".data ∧
          summarize_with_ollama articles post ≠ []) ∧
    (∀ body v, post (promptFor articles) = .resp 200 body →
        jsonField body "response".data = .ok v →
        summarize_with_ollama articles post = v) := by
  refine ⟨fun e he => ?_, fun status body hr h200 => ?_, fun body v hr hv => ?_⟩
  · rw [summarize_with_ollama, he]
    exact ⟨rfl, List.append_ne_nil_of_left_ne_nil (by decide) e⟩
  · rw [summarize_with_ollama, hr]
    dsimp only
    rw [if_neg h200]
    refine ⟨rfl, ?_⟩
    rw [List.append_assoc]
    exact List.append_ne_nil_of_left_ne_nil (by decide) _
  · rw [summarize_with_ollama, hr]
    dsimp only
    rw [if_pos rfl, hv]

/-- Witness for C6: a simulated timeout yields the explanatory text. -/
theorem summarize_error_contract_witness :
    summarize_with_ollama [] timeoutPost
        = "Error summarizing with Ollama: ".data ++ "timed out".data ∧
      summarize_with_ollama [] timeoutPost ≠ [] :=
  (summarize_error_contract [] timeoutPost).1 "timed out".data rfl

/-- C7: the Notifier returns true exactly when every step of the
transmission (connect, starttls, login, send, quit) completed without
exception — so on any failure it returns false — and it makes at most one
transmission attempt per invocation (no retry).  Totality of `send_email`
embeds that no exception escapes its boundary. -/
theorem send_email_result_contract (env : SmtpEnv) :
    ((send_email env).result = true ↔
        env.connectOk = true ∧ env.starttlsOk = true ∧ env.loginOk = true ∧
          env.sendOk = true ∧ env.quitOk = true) ∧
      (send_email env).sendAttempts ≤ 1 := by
  obtain ⟨a, b, c, d, e⟩ := env
  cases a <;> cases b <;> cases c <;> cases d <;> cases e <;> decide

/-- Witness for C7: a relay that rejects authentication yields false and
at most one transmission attempt. -/
theorem send_email_result_contract_witness :
    ((send_email authRejectEnv).result = true ↔
        authRejectEnv.connectOk = true ∧ authRejectEnv.starttlsOk = true ∧
          authRejectEnv.loginOk = true ∧ authRejectEnv.sendOk = true ∧
          authRejectEnv.quitOk = true) ∧
      (send_email authRejectEnv).sendAttempts ≤ 1 :=
  send_email_result_contract authRejectEnv

/-- C8: the Deduplicator is order-preserving — its output is a sublist of
its input (so retained elements keep their first-occurrence order) — and
every retained Article is the first Article of the input bearing its
case-insensitive title. -/
theorem dedupe_first_occurrence_order (l : List Article) :
    (dedupe10 l).Sublist l ∧
      ∀ a ∈ dedupe10 l,
        l.find? (fun b => decide (lowerStr b.title = lowerStr a.title)) = some a :=
  ⟨(List.take_sublist 10 (dedupe l)).trans (dedupLoop_sublist l []),
    fun _ ha => dedupLoop_find? (List.mem_of_mem_take ha)⟩

/-- Witness for C8 at a concrete input holding a case-variant duplicate:
`artA` is retained and is the first-seen Article with its title. -/
theorem dedupe_first_occurrence_order_witness :
    (dedupe10 exInput).Sublist exInput ∧
      exInput.find? (fun b => decide (lowerStr b.title = lowerStr artA.title))
        = some artA :=
  ⟨(dedupe_first_occurrence_order exInput).1,
    (dedupe_first_occurrence_order exInput).2 artA (by decide)⟩

/-- C9: the generate-summary transition is refused when the current Article
set is empty or the completion endpoint has not been verified reachable: in
every such state it produces no Summary and leaves the orchestrator state
unchanged. -/
theorem generate_summary_refused (s : AgentState) (post : List Char → HttpResult)
    (h : s.news_data = [] ∨ s.ollama_available = false) :
    generateSummary s post = s := by
  rcases h with h | h
  · rw [generateSummary, if_pos h]
  · by_cases he : s.news_data = []
    · rw [generateSummary, if_pos he]
    · rw [generateSummary, if_neg he, if_pos (by simp [h])]

/-- Witness for C9: the empty unverified state is left unchanged. -/
theorem generate_summary_refused_witness :
    generateSummary emptyState timeoutPost = emptyState :=
  generate_summary_refused emptyState timeoutPost (Or.inl rfl)

/-- C10: a 200 response whose body is not valid JSON or lacks the
`response` field does not raise either: the lookup failure is caught by the
same `except` branch as a transport failure and converted into the same
kind of non-empty explanatory error text. -/
theorem summarize_missing_field_contract (articles : List Article)
    (post : List Char → HttpResult) :
    ∀ body e, post (promptFor articles) = .resp 200 body →
      jsonField body "response".data = .error e →
      summarize_with_ollama articles post
          = "Error summarizing with Ollama: ".data ++ e ∧
        summarize_with_ollama articles post ≠ [] := by
  intro body e hr he
  rw [summarize_with_ollama, hr]
  dsimp only
  rw [if_pos rfl, he]
  exact ⟨rfl, List.append_ne_nil_of_left_ne_nil (by decide) e⟩

/-- Witness for C10: a 200 response whose object body lacks the `response`
field yields the explanatory `KeyError` text. -/
theorem summarize_missing_field_contract_witness :
    summarize_with_ollama [] noFieldPost
        = "Error summarizing with Ollama: ".data ++ keyErrorMsg "response".data ∧
      summarize_with_ollama [] noFieldPost ≠ [] :=
  summarize_missing_field_contract [] noFieldPost (.obj [])
    (keyErrorMsg "response".data) rfl rfl

end NewsAgent
